import Mathlib

set_option maxHeartbeats 1000000

/-!
Shallow embedding of the drone-email plugin (`plugin.go`).

`Plugin.Exec` sends build-notification emails over SMTP.  The embedding keeps
the pure control flow of the Go function and abstracts every external effect
(file system, template library, SMTP client) into an `Env` record of oracles,
while recording the observable actions (log lines, dial, per-recipient sends,
connection close) in an event trace.
-/

/-! ### Data model (the Go structs, verbatim) -/

structure Repo where
  FullName : String
  Owner : String
  Name : String
  SCM : String
  Link : String
  Avatar : String
  Branch : String
  Private : Bool
  Trusted : Bool

structure Remote where
  URL : String

structure Author where
  Name : String
  Email : String
  Avatar : String

structure Commit where
  Sha : String
  Ref : String
  Branch : String
  Link : String
  Message : String
  Author : Author

structure Build where
  Number : Int
  Event : String
  Status : String
  Link : String
  Created : Float
  Started : Float
  Finished : Float

structure PrevBuild where
  Status : String
  Number : Int

structure PrevCommit where
  Sha : String

structure Prev where
  Build : PrevBuild
  Commit : PrevCommit

structure Job where
  Status : String
  ExitCode : Int
  Started : Int
  Finished : Int

structure Yaml where
  Signed : Bool
  Verified : Bool

structure Config where
  FromAddress : String
  FromName : String
  Host : String
  Port : Int
  Username : String
  Password : String
  SkipVerify : Bool
  NoStartTLS : Bool
  Recipients : List String
  RecipientsFile : String
  RecipientsOnly : Bool
  Subject : String
  Body : String
  Attachment : String
  Attachments : List String
  ClientHostname : String

structure Plugin where
  Repo : Repo
  Remote : Remote
  Commit : Commit
  Build : Build
  Prev : Prev
  Job : Job
  Yaml : Yaml
  Tag : String
  PullRequest : Int
  DeployTo : String
  Config : Config

/-! ### Observable events

A mail message as assembled in the send loop (`mail.NewMsg()` plus the
header/body/attachment setters). -/

structure Msg where
  fromName : String
  fromAddress : String
  toAddr : String
  subject : String
  plainBody : String
  htmlBody : String
  attachments : List String
  deriving DecidableEq

/-- The observable actions of one `Exec` run: each `log.*` call in the source,
the SMTP dial attempt, each successful `client.Send`, and `client.Close`. -/
inductive Event where
  | warnEmptyConfigRecipient : Event
  | warnAuthorEmailEmpty : Event
  | warnEmptyFileRecipient : String → Event
  | errOpenFile : String → Event
  | infoRecipients : Event
  | errCreateClient : Event
  | errRenderBody : Event
  | errInline : Event
  | errHtml2Text : Event
  | errRenderSubject : Event
  | errDial : Event
  | errFromHeader : Event
  | errToHeader : Event
  | errSend : String → Event
  | dialed : Event
  | sent : String → Msg → Event
  | closed : Event
  deriving DecidableEq

/-! ### Environment of external effects -/

/-- Oracles for every external effect `Exec` performs.  `fileLines` is the
result of `os.Open` + line scan on the recipients file (`none` = open failed);
`fileExists` is `os.Stat` succeeding; the render/inline/text fields are the
results of the template, CSS-inliner and html2text libraries; the error
oracles give the outcome of client creation, dialing, header setting and
sending. -/
structure Env where
  fileLines : Option (List String)
  clientErr : Option String
  renderedBody : Except String String
  inlineRes : String → Except String String
  toTextRes : String → Except String String
  renderedSubject : Except String String
  dialErr : Option String
  fromErr : Option String
  toErr : String → Option String
  sendErr : String → Option String
  fileExists : String → Bool
  iterOrder : List String → List String

/-! ### Recipient resolution (plugin.go lines 121-159) -/

/-- Insertion into the `recipientsMap` set, modelled as a duplicate-free list
in first-insertion order. -/
def insertRecipient (l : List String) (r : String) : List String :=
  if r ∈ l then l else l ++ [r]

/-- One source's loop: skip empty entries with a warning, insert the rest.
Used for both the config list (lines 124-130) and the file lines
(lines 146-153); `warnEv` is the respective warning. -/
def addRecipients (warnEv : Event) : List String × List Event → List String → List String × List Event
  | acc, [] => acc
  | acc, r :: rest =>
    if r = "" then addRecipients warnEv (acc.1, acc.2 ++ [warnEv]) rest
    else addRecipients warnEv (insertRecipient acc.1 r, acc.2) rest

/-- Lines 121-157: merge the three recipient sources into the deduplicated
set, returning the set together with the log events emitted. -/
def resolveRecipients (cfg : Config) (authorEmail : String)
    (fileLines : Option (List String)) : List String × List Event :=
  let step1 := addRecipients Event.warnEmptyConfigRecipient ([], []) cfg.Recipients
  let step2 :=
    if cfg.RecipientsOnly then step1
    else if authorEmail = "" then (step1.1, step1.2 ++ [Event.warnAuthorEmailEmpty])
    else (insertRecipient step1.1 authorEmail, step1.2)
  if cfg.RecipientsFile = "" then step2
  else
    match fileLines with
    | some lines => addRecipients (Event.warnEmptyFileRecipient cfg.RecipientsFile) step2 lines
    | none => (step2.1, step2.2 ++ [Event.errOpenFile cfg.RecipientsFile])

/-! ### Mail client options (plugin.go lines 161-192) -/

inductive TLSPolicy where
  | NoTLS : TLSPolicy
  | TLSOpportunistic : TLSPolicy
  | TLSMandatory : TLSPolicy
  deriving DecidableEq

inductive MailOption where
  | withPort : Int → MailOption
  | withHELO : String → MailOption
  | withSMTPAuthPlain : MailOption
  | withUsername : String → MailOption
  | withPassword : String → MailOption
  | withTLSConfig : Bool → MailOption
  | withTLSPortPolicy : TLSPolicy → MailOption
  deriving DecidableEq

/-- Lines 162-192: assemble the `mail.Option` list from the configuration.
`withTLSConfig b` records `InsecureSkipVerify = b`. -/
def buildOptions (cfg : Config) : List MailOption :=
  let options := [MailOption.withPort cfg.Port]
  let options :=
    if cfg.ClientHostname = "" then options
    else options ++ [MailOption.withHELO cfg.ClientHostname]
  let options :=
    if cfg.Username ≠ "" ∧ cfg.Password ≠ "" then
      options ++ [MailOption.withSMTPAuthPlain, MailOption.withUsername cfg.Username,
        MailOption.withPassword cfg.Password]
    else options
  let options :=
    if cfg.SkipVerify then options ++ [MailOption.withTLSConfig true] else options
  if cfg.NoStartTLS then options ++ [MailOption.withTLSPortPolicy TLSPolicy.NoTLS]
  else options ++ [MailOption.withTLSPortPolicy TLSPolicy.TLSOpportunistic]

/-! ### Message assembly and send loop (plugin.go lines 260-308) -/

/-- Lines 290-301: the attachment paths that end up on a message — the single
`Attachment` (when set and `os.Stat` succeeds) followed by every entry of
`Attachments` whose `os.Stat` succeeds.  Missing files are skipped silently. -/
def attachmentList (cfg : Config) (fileExists : String → Bool) : List String :=
  (if cfg.Attachment ≠ "" ∧ fileExists cfg.Attachment then [cfg.Attachment] else [])
    ++ cfg.Attachments.filter (fun a => fileExists a)

/-- The message built for one recipient once the From/To headers succeeded. -/
def mkMsg (cfg : Config) (fileExists : String → Bool)
    (subject plain html : String) (recipient : String) : Msg :=
  { fromName := cfg.FromName
    fromAddress := cfg.FromAddress
    toAddr := recipient
    subject := subject
    plainBody := plain
    htmlBody := html
    attachments := attachmentList cfg fileExists }

/-- Lines 260-308: the per-recipient loop over the (map-ordered) recipient
list.  From/To header failures and send failures abort with the error. -/
def sendLoop (cfg : Config) (env : Env) (subject plain html : String) :
    List String → Option String × List Event
  | [] => (none, [])
  | r :: rest =>
    match env.fromErr with
    | some e => (some e, [Event.errFromHeader])
    | none =>
      match env.toErr r with
      | some e => (some e, [Event.errToHeader])
      | none =>
        match env.sendErr r with
        | some e => (some e, [Event.errSend r])
        | none =>
          let res := sendLoop cfg env subject plain html rest
          (res.1, Event.sent r (mkMsg cfg env.fileExists subject plain html r) :: res.2)

/-- The rendering / composition stage (lines 227-250): body template, CSS
inlining, plain-text derivation, subject template, each aborting on error. -/
def composeErr (env : Env) : Option String :=
  match env.renderedBody with
  | Except.error e => some e
  | Except.ok body =>
    match env.inlineRes body with
    | Except.error e => some e
    | Except.ok html =>
      match env.toTextRes html with
      | Except.error e => some e
      | Except.ok _ =>
        match env.renderedSubject with
        | Except.error e => some e
        | Except.ok _ => none

/-- `Plugin.Exec` (lines 119-311): returns the Go error (`none` = nil) and
the trace of observable events, in order.  `env.iterOrder` supplies the Go
map iteration order over the resolved recipient set. -/
def Plugin.Exec (p : Plugin) (env : Env) : Option String × List Event :=
  let resolved := resolveRecipients p.Config p.Commit.Author.Email env.fileLines
  let logs := resolved.2 ++ [Event.infoRecipients]
  match env.clientErr with
  | some e => (some e, logs ++ [Event.errCreateClient])
  | none =>
    match env.renderedBody with
    | Except.error e => (some e, logs ++ [Event.errRenderBody])
    | Except.ok body =>
      match env.inlineRes body with
      | Except.error e => (some e, logs ++ [Event.errInline])
      | Except.ok html =>
        match env.toTextRes html with
        | Except.error e => (some e, logs ++ [Event.errHtml2Text])
        | Except.ok plain =>
          match env.renderedSubject with
          | Except.error e => (some e, logs ++ [Event.errRenderSubject])
          | Except.ok subject =>
            match env.dialErr with
            | some e => (some e, logs ++ [Event.dialed, Event.errDial])
            | none =>
              let res := sendLoop p.Config env subject plain html
                (env.iterOrder resolved.1)
              (res.1, logs ++ [Event.dialed] ++ res.2 ++ [Event.closed])

/-! ### Fixtures for concrete evaluations -/

def baseRepo : Repo := ⟨"o/r", "o", "r", "git", "", "", "main", false, true⟩

def baseAuthor : Author := ⟨"Ann", "ann@x.com", ""⟩

def baseCommit : Commit := ⟨"sha", "refs/heads/main", "main", "", "msg", baseAuthor⟩

def baseBuild : Build := ⟨1, "push", "success", "", 0, 0, 0⟩

def basePrev : Prev := ⟨⟨"success", 0⟩, ⟨"prevsha"⟩⟩

def baseJob : Job := ⟨"success", 0, 0, 0⟩

def baseYaml : Yaml := ⟨false, false⟩

def baseConfig : Config :=
  ⟨"from@x.com", "", "smtp.x.com", 587, "", "", false, false, [], "", false,
    "subject tmpl", "body tmpl", "", [], ""⟩

def basePlugin : Plugin :=
  ⟨baseRepo, ⟨""⟩, baseCommit, baseBuild, basePrev, baseJob, baseYaml, "", 0, "", baseConfig⟩

def baseEnv : Env :=
  ⟨none, none, Except.ok "B", fun _ => Except.ok "H", fun _ => Except.ok "T",
    Except.ok "S", none, none, fun _ => none, fun _ => none, fun _ => false, id⟩

def cfgDup : Config :=
  { baseConfig with Recipients := ["a@x.com", "a@x.com", ""], RecipientsFile := "r.txt" }

def cfgThree : Config :=
  { baseConfig with Recipients := ["a@x.com", "b@x.com", "c@x.com"], RecipientsOnly := true }

def pluginThree : Plugin := { basePlugin with Config := cfgThree }

def envSendFail : Env :=
  { baseEnv with sendErr := fun r => if r = "b@x.com" then some "boom" else none }

def envDialFail : Env := { baseEnv with dialErr := some "dialfail" }

def envBodyFail : Env := { baseEnv with renderedBody := Except.error "tplfail" }

def cfgMissingAttach : Config :=
  { baseConfig with
    Recipients := ["a@x.com"]
    RecipientsOnly := true
    Attachment := "/missing.txt" }

def pluginMissingAttach : Plugin := { basePlugin with Config := cfgMissingAttach }

def cfgFile : Config :=
  { baseConfig with
    Recipients := ["a@x.com"]
    RecipientsOnly := true
    RecipientsFile := "r.txt" }

def pluginFile : Plugin := { basePlugin with Config := cfgFile }

def cfgTLS : Config := { baseConfig with NoStartTLS := true, SkipVerify := true }

def cfgWarn : Config :=
  { baseConfig with Recipients := [""], RecipientsFile := "r.txt" }

def pluginWarn : Plugin :=
  { basePlugin with
    Config := cfgWarn
    Commit := { baseCommit with Author := { baseAuthor with Email := "" } } }

def cfgNone : Config := { baseConfig with RecipientsOnly := true }

def pluginNone : Plugin := { basePlugin with Config := cfgNone }

/-! ### Lemmas on recipient resolution -/

theorem mem_insertRecipient {l : List String} {r x : String} :
    x ∈ insertRecipient l r ↔ x ∈ l ∨ x = r := by
  by_cases h : r ∈ l
  · simp only [insertRecipient, if_pos h]
    constructor
    · exact Or.inl
    · rintro (hx | rfl)
      · exact hx
      · exact h
  · simp [insertRecipient, if_neg h]

theorem nodup_insertRecipient {l : List String} {r : String} (h : l.Nodup) :
    (insertRecipient l r).Nodup := by
  by_cases hr : r ∈ l
  · simpa [insertRecipient, hr] using h
  · simp [insertRecipient, hr, List.nodup_append, h]

theorem not_empty_insertRecipient {l : List String} {r : String} (h : ("" : String) ∉ l)
    (hr : r ≠ "") : ("" : String) ∉ insertRecipient l r := by
  intro hmem
  rcases mem_insertRecipient.1 hmem with hx | hx
  · exact h hx
  · exact hr hx.symm

theorem addRecipients_fst_mem (w : Event) (rs : List String)
    (acc : List String × List Event) (x : String) :
    x ∈ (addRecipients w acc rs).1 ↔ x ∈ acc.1 ∨ (x ∈ rs ∧ x ≠ "") := by
  induction rs generalizing acc with
  | nil => simp [addRecipients]
  | cons r rest ih =>
    by_cases hr : r = ""
    · subst hr
      simp only [addRecipients, if_pos rfl, if_true]
      rw [ih]
      simp only [List.mem_cons]
      constructor
      · rintro (hx | ⟨hx, hne⟩)
        · exact Or.inl hx
        · exact Or.inr ⟨Or.inr hx, hne⟩
      · rintro (hx | ⟨rfl | hx, hne⟩)
        · exact Or.inl hx
        · exact absurd rfl hne
        · exact Or.inr ⟨hx, hne⟩
    · simp only [addRecipients, if_neg hr]
      rw [ih]
      simp only [mem_insertRecipient, List.mem_cons]
      constructor
      · rintro ((hx | rfl) | ⟨hx, hne⟩)
        · exact Or.inl hx
        · exact Or.inr ⟨Or.inl rfl, hr⟩
        · exact Or.inr ⟨Or.inr hx, hne⟩
      · rintro (hx | ⟨rfl | hx, hne⟩)
        · exact Or.inl (Or.inl hx)
        · exact Or.inl (Or.inr rfl)
        · exact Or.inr ⟨hx, hne⟩

theorem addRecipients_fst_nodup (w : Event) (rs : List String)
    (acc : List String × List Event) (h : acc.1.Nodup) :
    (addRecipients w acc rs).1.Nodup := by
  induction rs generalizing acc with
  | nil => simpa [addRecipients]
  | cons r rest ih =>
    by_cases hr : r = ""
    · subst hr
      simp only [addRecipients, if_pos rfl, if_true]
      exact ih _ h
    · simp only [addRecipients, if_neg hr]
      exact ih _ (nodup_insertRecipient h)

theorem addRecipients_snd (w : Event) (rs : List String)
    (acc : List String × List Event) :
    (addRecipients w acc rs).2 =
      acc.2 ++ (rs.filter (fun r => r = "")).map (fun _ => w) := by
  induction rs generalizing acc with
  | nil => simp [addRecipients]
  | cons r rest ih =>
    by_cases hr : r = ""
    · subst hr
      simp only [addRecipients, if_pos rfl, if_true]
      rw [ih]
      simp [List.filter_cons, List.append_assoc]
    · simp only [addRecipients, if_neg hr]
      rw [ih]
      simp [List.filter_cons, hr]


set_option linter.unusedVariables false

theorem resolveRecipients_fst_mem (cfg : Config) (email : String)
    (fl : Option (List String)) (hf : cfg.RecipientsFile = "" → fl = none) (x : String) :
    x ∈ (resolveRecipients cfg email fl).1 ↔
      (x ∈ cfg.Recipients ∧ x ≠ "") ∨
      (cfg.RecipientsOnly = false ∧ email ≠ "" ∧ x = email) ∨
      (∃ ls, fl = some ls ∧ x ∈ ls ∧ x ≠ "") := by
  have h1 : ∀ y, y ∈ (addRecipients Event.warnEmptyConfigRecipient ([], []) cfg.Recipients).1 ↔
      (y ∈ cfg.Recipients ∧ y ≠ "") := by
    intro y
    rw [addRecipients_fst_mem]
    simp
  by_cases hfe : cfg.RecipientsFile = ""
  · have hfl := hf hfe
    subst hfl
    by_cases hro : cfg.RecipientsOnly = true
    · simp only [resolveRecipients, hro, hfe, if_true, ite_true]
      rw [h1]
      simp [hro]
    · by_cases he : email = ""
      · simp only [resolveRecipients, hro, hfe, he, if_true, ite_true, if_false, ite_false,
          Bool.false_eq_true]
        rw [h1]
        simp [hro, he]
      · simp only [resolveRecipients, hro, hfe, he, if_true, ite_true, if_false, ite_false,
          Bool.false_eq_true]
        rw [mem_insertRecipient, h1]
        simp only [Bool.not_eq_true] at hro
        simp [hro, he]
  · by_cases hro : cfg.RecipientsOnly = true
    · cases fl with
      | some ls =>
        simp only [resolveRecipients, hro, hfe, if_true, ite_true, if_false, ite_false]
        rw [addRecipients_fst_mem, h1]
        simp [hro, hfe]
      | none =>
        simp only [resolveRecipients, hro, hfe, if_true, ite_true, if_false, ite_false]
        rw [h1]
        simp [hro]
    · by_cases he : email = ""
      · cases fl with
        | some ls =>
          simp only [resolveRecipients, hro, hfe, he, if_true, ite_true, if_false, ite_false,
            Bool.false_eq_true]
          rw [addRecipients_fst_mem, h1]
          simp [hro, he]
        | none =>
          simp only [resolveRecipients, hro, hfe, he, if_true, ite_true, if_false, ite_false,
            Bool.false_eq_true]
          rw [h1]
          simp [hro, he]
      · cases fl with
        | some ls =>
          simp only [resolveRecipients, hro, hfe, he, if_true, ite_true, if_false, ite_false,
            Bool.false_eq_true]
          rw [addRecipients_fst_mem]
          simp only [mem_insertRecipient]
          rw [h1]
          simp only [Bool.not_eq_true] at hro
          simp [hro, he]
          tauto
        | none =>
          simp only [resolveRecipients, hro, hfe, he, if_true, ite_true, if_false, ite_false,
            Bool.false_eq_true]
          rw [mem_insertRecipient, h1]
          simp only [Bool.not_eq_true] at hro
          simp [hro, he]

theorem resolveRecipients_fst_nodup (cfg : Config) (email : String)
    (fl : Option (List String)) : (resolveRecipients cfg email fl).1.Nodup := by
  have h1 : (addRecipients Event.warnEmptyConfigRecipient ([], []) cfg.Recipients).1.Nodup :=
    addRecipients_fst_nodup _ _ _ List.nodup_nil
  by_cases hro : cfg.RecipientsOnly = true <;>
    by_cases hfe : cfg.RecipientsFile = "" <;>
      by_cases he : email = "" <;>
        cases fl <;>
          simp only [resolveRecipients, hro, hfe, he, if_true, ite_true, if_false, ite_false,
            Bool.false_eq_true] <;>
          first
            | exact h1
            | exact addRecipients_fst_nodup _ _ _ h1
            | exact nodup_insertRecipient h1
            | exact addRecipients_fst_nodup _ _ _ (nodup_insertRecipient h1)

theorem resolveRecipients_snd (cfg : Config) (email : String) (fl : Option (List String)) :
    (resolveRecipients cfg email fl).2 =
      (cfg.Recipients.filter (fun r => r = "")).map (fun _ => Event.warnEmptyConfigRecipient)
      ++ (if cfg.RecipientsOnly then [] else if email = "" then [Event.warnAuthorEmailEmpty] else [])
      ++ (if cfg.RecipientsFile = "" then []
          else match fl with
          | some ls => (ls.filter (fun r => r = "")).map
              (fun _ => Event.warnEmptyFileRecipient cfg.RecipientsFile)
          | none => [Event.errOpenFile cfg.RecipientsFile]) := by
  have h1 : (addRecipients Event.warnEmptyConfigRecipient ([], []) cfg.Recipients).2 =
      (cfg.Recipients.filter (fun r => r = "")).map (fun _ => Event.warnEmptyConfigRecipient) := by
    rw [addRecipients_snd]
    simp
  by_cases hro : cfg.RecipientsOnly = true <;>
    by_cases hfe : cfg.RecipientsFile = "" <;>
      by_cases he : email = "" <;>
        cases fl <;>
          simp only [resolveRecipients, hro, hfe, he, if_true, ite_true, if_false, ite_false,
            Bool.false_eq_true] <;>
          simp [addRecipients_snd, h1]

theorem resolveRecipients_snd_shape (cfg : Config) (email : String)
    (fl : Option (List String)) (ev : Event)
    (h : ev ∈ (resolveRecipients cfg email fl).2) :
    ev = Event.warnEmptyConfigRecipient ∨ ev = Event.warnAuthorEmailEmpty ∨
    ev = Event.warnEmptyFileRecipient cfg.RecipientsFile ∨
    ev = Event.errOpenFile cfg.RecipientsFile := by
  rw [resolveRecipients_snd] at h
  simp only [List.mem_append] at h
  rcases h with (h | h) | h
  · rcases List.mem_map.1 h with ⟨_, _, rfl⟩
    exact Or.inl rfl
  · rcases Decidable.em (cfg.RecipientsOnly = true) with hro | hro
    · simp [hro] at h
    · simp only [Bool.not_eq_true] at hro
      rcases Decidable.em (email = "") with he | he
      · simp [hro, he] at h
        exact Or.inr (Or.inl h)
      · simp [hro, he] at h
  · rcases Decidable.em (cfg.RecipientsFile = "") with hfe | hfe
    · simp [hfe] at h
    · simp only [if_neg hfe] at h
      cases fl with
      | some ls =>
        rcases List.mem_map.1 h with ⟨_, _, rfl⟩
        exact Or.inr (Or.inr (Or.inl rfl))
      | none =>
        simp at h
        exact Or.inr (Or.inr (Or.inr h))

/-! ### Lemmas on the send loop -/

theorem sendLoop_no_closed (cfg : Config) (env : Env) (sbj txt htm : String)
    (rs : List String) : Event.closed ∉ (sendLoop cfg env sbj txt htm rs).2 := by
  induction rs with
  | nil => simp [sendLoop]
  | cons r rest ih =>
    cases hf : env.fromErr with
    | some e => simp [sendLoop, hf]
    | none =>
      cases ht : env.toErr r with
      | some e => simp [sendLoop, hf, ht]
      | none =>
        cases hs : env.sendErr r with
        | some e => simp [sendLoop, hf, ht, hs]
        | none =>
          simp only [sendLoop, hf, ht, hs, List.mem_cons]
          rintro (h | h)
          · cases h
          · exact ih h

theorem sendLoop_events_shape (cfg : Config) (env : Env) (sbj txt htm : String)
    (rs : List String) (ev : Event) (hev : ev ∈ (sendLoop cfg env sbj txt htm rs).2) :
    (∃ r m, ev = Event.sent r m) ∨ ev = Event.errFromHeader ∨ ev = Event.errToHeader ∨
    ∃ r, ev = Event.errSend r := by
  induction rs with
  | nil => simp [sendLoop] at hev
  | cons r rest ih =>
    cases hf : env.fromErr with
    | some e =>
      simp [sendLoop, hf] at hev
      exact Or.inr (Or.inl hev)
    | none =>
      cases ht : env.toErr r with
      | some e =>
        simp [sendLoop, hf, ht] at hev
        exact Or.inr (Or.inr (Or.inl hev))
      | none =>
        cases hs : env.sendErr r with
        | some e =>
          simp [sendLoop, hf, ht, hs] at hev
          exact Or.inr (Or.inr (Or.inr ⟨r, hev⟩))
        | none =>
          simp only [sendLoop, hf, ht, hs, List.mem_cons] at hev
          rcases hev with rfl | hev
          · exact Or.inl ⟨r, _, rfl⟩
          · exact ih hev

theorem sendLoop_sent_msg (cfg : Config) (env : Env) (sbj txt htm : String)
    (rs : List String) (r : String) (m : Msg)
    (hev : Event.sent r m ∈ (sendLoop cfg env sbj txt htm rs).2) :
    m = mkMsg cfg env.fileExists sbj txt htm r := by
  induction rs with
  | nil => simp [sendLoop] at hev
  | cons r0 rest ih =>
    cases hf : env.fromErr with
    | some e => simp [sendLoop, hf] at hev
    | none =>
      cases ht : env.toErr r0 with
      | some e => simp [sendLoop, hf, ht] at hev
      | none =>
        cases hs : env.sendErr r0 with
        | some e => simp [sendLoop, hf, ht, hs] at hev
        | none =>
          simp only [sendLoop, hf, ht, hs, List.mem_cons] at hev
          rcases hev with heq | hev
          · cases heq
            rfl
          · exact ih hev

theorem sendLoop_fst_eq (cfg1 cfg2 : Config) (env1 env2 : Env)
    (s1 t1 h1 s2 t2 h2 : String)
    (hfr : env1.fromErr = env2.fromErr) (hto : ∀ r, env1.toErr r = env2.toErr r)
    (hse : ∀ r, env1.sendErr r = env2.sendErr r) (rs : List String) :
    (sendLoop cfg1 env1 s1 t1 h1 rs).1 = (sendLoop cfg2 env2 s2 t2 h2 rs).1 := by
  induction rs with
  | nil => simp [sendLoop]
  | cons r rest ih =>
    cases hf : env1.fromErr with
    | some e => simp [sendLoop, hf, hfr ▸ hf, ← hfr]
    | none =>
      cases ht : env1.toErr r with
      | some e => simp [sendLoop, hf, ← hfr, ht, ← hto]
      | none =>
        cases hs : env1.sendErr r with
        | some e => simp [sendLoop, hf, ← hfr, ht, ← hto, hs, ← hse]
        | none => simp [sendLoop, hf, ← hfr, ht, ← hto, hs, ← hse, ih]

theorem sendLoop_all_ok (cfg : Config) (env : Env) (sbj txt htm : String)
    (rs : List String) (hfr : env.fromErr = none)
    (hok : ∀ r ∈ rs, env.toErr r = none ∧ env.sendErr r = none) :
    sendLoop cfg env sbj txt htm rs =
      (none, rs.map (fun r => Event.sent r (mkMsg cfg env.fileExists sbj txt htm r))) := by
  induction rs with
  | nil => simp [sendLoop]
  | cons r rest ih =>
    have hr := hok r (List.mem_cons_self r rest)
    rw [show sendLoop cfg env sbj txt htm (r :: rest) =
      (match env.fromErr with
      | some e => (some e, [Event.errFromHeader])
      | none =>
        match env.toErr r with
        | some e => (some e, [Event.errToHeader])
        | none =>
          match env.sendErr r with
          | some e => (some e, [Event.errSend r])
          | none =>
            let res := sendLoop cfg env sbj txt htm rest
            (res.1, Event.sent r (mkMsg cfg env.fileExists sbj txt htm r) :: res.2)) from rfl]
    rw [hfr, hr.1, hr.2, ih (fun x hx => hok x (List.mem_cons_of_mem r hx))]
    simp

theorem sendLoop_fail_at (cfg : Config) (env : Env) (sbj txt htm : String)
    (pre post : List String) (r : String) (e : String)
    (hfr : env.fromErr = none)
    (hpre : ∀ x ∈ pre, env.toErr x = none ∧ env.sendErr x = none)
    (hto : env.toErr r = none) (hse : env.sendErr r = some e) :
    sendLoop cfg env sbj txt htm (pre ++ r :: post) =
      (some e,
        pre.map (fun x => Event.sent x (mkMsg cfg env.fileExists sbj txt htm x))
          ++ [Event.errSend r]) := by
  induction pre with
  | nil => simp [sendLoop, hfr, hto, hse]
  | cons x rest ih =>
    have hx := hpre x (List.mem_cons_self x rest)
    have ih2 := ih (fun y hy => hpre y (List.mem_cons_of_mem x hy))
    simp only [List.cons_append, sendLoop, hfr, hx.1, hx.2, List.append_eq]
    rw [ih2]
    simp

theorem Exec_unfold_ok (p : Plugin) (env : Env) (bdy htm txt sbj : String)
    (hclient : env.clientErr = none) (hbody : env.renderedBody = Except.ok bdy)
    (hinl : env.inlineRes bdy = Except.ok htm) (htxt : env.toTextRes htm = Except.ok txt)
    (hsubj : env.renderedSubject = Except.ok sbj) (hdial : env.dialErr = none) :
    p.Exec env =
      ((sendLoop p.Config env sbj txt htm
          (env.iterOrder (resolveRecipients p.Config p.Commit.Author.Email env.fileLines).1)).1,
        (resolveRecipients p.Config p.Commit.Author.Email env.fileLines).2
          ++ [Event.infoRecipients, Event.dialed]
          ++ (sendLoop p.Config env sbj txt htm
              (env.iterOrder (resolveRecipients p.Config p.Commit.Author.Email env.fileLines).1)).2
          ++ [Event.closed]) := by
  simp only [Plugin.Exec, hclient, hbody, hinl, htxt, hsubj, hdial]
  simp [List.append_assoc]

theorem Exec_unfold_dialfail (p : Plugin) (env : Env) (bdy htm txt sbj e : String)
    (hclient : env.clientErr = none) (hbody : env.renderedBody = Except.ok bdy)
    (hinl : env.inlineRes bdy = Except.ok htm) (htxt : env.toTextRes htm = Except.ok txt)
    (hsubj : env.renderedSubject = Except.ok sbj) (hdial : env.dialErr = some e) :
    p.Exec env =
      (some e, (resolveRecipients p.Config p.Commit.Author.Email env.fileLines).2
        ++ [Event.infoRecipients, Event.dialed, Event.errDial]) := by
  simp only [Plugin.Exec, hclient, hbody, hinl, htxt, hsubj, hdial]
  simp [List.append_assoc]

/-! ### Further helper lemmas on `Plugin.Exec` -/

theorem resolveRecipients_snd_not_special (cfg : Config) (email : String)
    (fl : Option (List String)) (ev : Event)
    (h : ev ∈ (resolveRecipients cfg email fl).2) :
    ev ≠ Event.dialed ∧ (∀ r m, ev ≠ Event.sent r m) ∧ ev ≠ Event.closed := by
  rcases resolveRecipients_snd_shape cfg email fl ev h with h | h | h | h <;> subst h <;>
    exact ⟨fun hc => Event.noConfusion hc, fun r m hc => Event.noConfusion hc,
      fun hc => Event.noConfusion hc⟩

theorem composeErr_none (env : Env) (h : composeErr env = none) :
    ∃ bdy htm txt sbj, env.renderedBody = Except.ok bdy ∧
      env.inlineRes bdy = Except.ok htm ∧ env.toTextRes htm = Except.ok txt ∧
      env.renderedSubject = Except.ok sbj := by
  cases hb : env.renderedBody with
  | error e => simp [composeErr, hb] at h
  | ok bdy =>
    cases hi : env.inlineRes bdy with
    | error e => simp [composeErr, hb, hi] at h
    | ok htm =>
      cases ht : env.toTextRes htm with
      | error e => simp [composeErr, hb, hi, ht] at h
      | ok txt =>
        cases hs : env.renderedSubject with
        | error e => simp [composeErr, hb, hi, ht, hs] at h
        | ok sbj => exact ⟨bdy, htm, txt, sbj, rfl, hi, ht, rfl⟩

theorem Exec_unfold_clientfail (p : Plugin) (env : Env) (e : String)
    (hclient : env.clientErr = some e) :
    p.Exec env = (some e, (resolveRecipients p.Config p.Commit.Author.Email env.fileLines).2
      ++ [Event.infoRecipients, Event.errCreateClient]) := by
  simp only [Plugin.Exec, hclient]
  simp [List.append_assoc]

theorem Exec_unfold_composefail (p : Plugin) (env : Env) (e : String)
    (hclient : env.clientErr = none) (hcomp : composeErr env = some e) :
    ∃ ev, p.Exec env = (some e, (resolveRecipients p.Config p.Commit.Author.Email env.fileLines).2
        ++ [Event.infoRecipients, ev]) ∧
      (ev = Event.errRenderBody ∨ ev = Event.errInline ∨ ev = Event.errHtml2Text ∨
        ev = Event.errRenderSubject) := by
  cases hb : env.renderedBody with
  | error e0 =>
    simp only [composeErr, hb, Option.some.injEq] at hcomp
    subst hcomp
    refine ⟨Event.errRenderBody, ?_, Or.inl rfl⟩
    simp only [Plugin.Exec, hclient, hb]
    simp [List.append_assoc]
  | ok bdy =>
    cases hi : env.inlineRes bdy with
    | error e0 =>
      simp only [composeErr, hb, hi, Option.some.injEq] at hcomp
      subst hcomp
      refine ⟨Event.errInline, ?_, Or.inr (Or.inl rfl)⟩
      simp only [Plugin.Exec, hclient, hb, hi]
      simp [List.append_assoc]
    | ok htm =>
      cases ht : env.toTextRes htm with
      | error e0 =>
        simp only [composeErr, hb, hi, ht, Option.some.injEq] at hcomp
        subst hcomp
        refine ⟨Event.errHtml2Text, ?_, Or.inr (Or.inr (Or.inl rfl))⟩
        simp only [Plugin.Exec, hclient, hb, hi, ht]
        simp [List.append_assoc]
      | ok txt =>
        cases hs : env.renderedSubject with
        | error e0 =>
          simp only [composeErr, hb, hi, ht, hs, Option.some.injEq] at hcomp
          subst hcomp
          refine ⟨Event.errRenderSubject, ?_, Or.inr (Or.inr (Or.inr rfl))⟩
          simp only [Plugin.Exec, hclient, hb, hi, ht, hs]
          simp [List.append_assoc]
        | ok sbj => simp [composeErr, hb, hi, ht, hs] at hcomp

theorem mem_attachmentList (cfg : Config) (fx : String → Bool) (q : String) :
    q ∈ attachmentList cfg fx ↔
      fx q = true ∧ ((q = cfg.Attachment ∧ q ≠ "") ∨ q ∈ cfg.Attachments) := by
  unfold attachmentList
  constructor
  · intro hq
    rcases List.mem_append.1 hq with hq | hq
    · have hcond : cfg.Attachment ≠ "" ∧ fx cfg.Attachment := by
        by_contra hc
        rw [if_neg hc] at hq
        cases hq
      rw [if_pos hcond] at hq
      rcases List.mem_singleton.1 hq with rfl
      exact ⟨hcond.2, Or.inl ⟨rfl, hcond.1⟩⟩
    · rcases List.mem_filter.1 hq with ⟨hmem, hex⟩
      exact ⟨hex, Or.inr hmem⟩
  · rintro ⟨hex, ⟨rfl, hne⟩ | hq⟩
    · exact List.mem_append.2 (Or.inl (by rw [if_pos ⟨hne, hex⟩]; exact List.mem_singleton.2 rfl))
    · exact List.mem_append.2 (Or.inr (List.mem_filter.2 ⟨hq, hex⟩))

theorem exec_err_before_dial (p : Plugin) (env : Env) (e : String) (ev : Event)
    (hEq : p.Exec env = (some e,
      (resolveRecipients p.Config p.Commit.Author.Email env.fileLines).2
        ++ [Event.infoRecipients, ev]))
    (h1 : ev ≠ Event.dialed) (h2 : ∀ r m, ev ≠ Event.sent r m) (h3 : ev ≠ Event.closed) :
    (p.Exec env).1 = some e ∧ Event.dialed ∉ (p.Exec env).2 ∧
    (∀ r m, Event.sent r m ∉ (p.Exec env).2) ∧ Event.closed ∉ (p.Exec env).2 := by
  rw [hEq]
  refine ⟨rfl, ?_, ?_, ?_⟩
  · intro h
    rcases List.mem_append.1 h with h | h
    · exact (resolveRecipients_snd_not_special _ _ _ _ h).1 rfl
    · rcases List.mem_cons.1 h with h | h
      · cases h
      · rcases List.mem_cons.1 h with h | h
        · exact h1 h.symm
        · cases h
  · intro r m h
    rcases List.mem_append.1 h with h | h
    · exact (resolveRecipients_snd_not_special _ _ _ _ h).2.1 r m rfl
    · rcases List.mem_cons.1 h with h | h
      · cases h
      · rcases List.mem_cons.1 h with h | h
        · exact h2 r m h.symm
        · cases h
  · intro h
    rcases List.mem_append.1 h with h | h
    · exact (resolveRecipients_snd_not_special _ _ _ _ h).2.2 rfl
    · rcases List.mem_cons.1 h with h | h
      · cases h
      · rcases List.mem_cons.1 h with h | h
        · exact h3 h.symm
        · cases h

theorem Exec_snd_resolve_prefix (p : Plugin) (env : Env) :
    ∃ tl, (p.Exec env).2 =
      (resolveRecipients p.Config p.Commit.Author.Email env.fileLines).2 ++ tl := by
  cases hc : env.clientErr with
  | some e =>
    refine ⟨[Event.infoRecipients, Event.errCreateClient], ?_⟩
    rw [Exec_unfold_clientfail p env e hc]
  | none =>
    cases hcomp : composeErr env with
    | some e =>
      obtain ⟨ev, hEq, _⟩ := Exec_unfold_composefail p env e hc hcomp
      refine ⟨[Event.infoRecipients, ev], ?_⟩
      rw [hEq]
    | none =>
      obtain ⟨bdy, htm, txt, sbj, hb, hi, ht, hs⟩ := composeErr_none env hcomp
      cases hd : env.dialErr with
      | some e =>
        refine ⟨[Event.infoRecipients, Event.dialed, Event.errDial], ?_⟩
        rw [Exec_unfold_dialfail p env bdy htm txt sbj e hc hb hi ht hs hd]
      | none =>
        refine ⟨[Event.infoRecipients, Event.dialed]
          ++ (sendLoop p.Config env sbj txt htm
            (env.iterOrder (resolveRecipients p.Config p.Commit.Author.Email env.fileLines).1)).2
          ++ [Event.closed], ?_⟩
        rw [Exec_unfold_ok p env bdy htm txt sbj hc hb hi ht hs hd]
        simp [List.append_assoc]

theorem Exec_sent_attachments (p : Plugin) (env : Env) (r : String) (m : Msg)
    (h : Event.sent r m ∈ (p.Exec env).2) :
    m.attachments = attachmentList p.Config env.fileExists := by
  cases hc : env.clientErr with
  | some e =>
    rw [Exec_unfold_clientfail p env e hc] at h
    rcases List.mem_append.1 h with h | h
    · exact absurd rfl ((resolveRecipients_snd_not_special _ _ _ _ h).2.1 r m)
    · simp at h
  | none =>
    cases hcomp : composeErr env with
    | some e =>
      obtain ⟨ev, hEq, hor⟩ := Exec_unfold_composefail p env e hc hcomp
      rw [hEq] at h
      rcases List.mem_append.1 h with h | h
      · exact absurd rfl ((resolveRecipients_snd_not_special _ _ _ _ h).2.1 r m)
      · rcases hor with rfl | rfl | rfl | rfl <;> simp at h
    | none =>
      obtain ⟨bdy, htm, txt, sbj, hb, hi, ht, hs⟩ := composeErr_none env hcomp
      cases hd : env.dialErr with
      | some e =>
        rw [Exec_unfold_dialfail p env bdy htm txt sbj e hc hb hi ht hs hd] at h
        rcases List.mem_append.1 h with h | h
        · exact absurd rfl ((resolveRecipients_snd_not_special _ _ _ _ h).2.1 r m)
        · simp at h
      | none =>
        rw [Exec_unfold_ok p env bdy htm txt sbj hc hb hi ht hs hd] at h
        rcases List.mem_append.1 h with h | h
        · rcases List.mem_append.1 h with h | h
          · rcases List.mem_append.1 h with h | h
            · exact absurd rfl ((resolveRecipients_snd_not_special _ _ _ _ h).2.1 r m)
            · simp at h
          · rw [sendLoop_sent_msg _ _ _ _ _ _ _ _ h]
            rfl
        · simp at h

theorem Exec_fst_congr (p1 p2 : Plugin) (env1 env2 : Env)
    (hres : (resolveRecipients p1.Config p1.Commit.Author.Email env1.fileLines).1 =
            (resolveRecipients p2.Config p2.Commit.Author.Email env2.fileLines).1)
    (hclient : env1.clientErr = env2.clientErr)
    (hbody : env1.renderedBody = env2.renderedBody)
    (hinl : ∀ x, env1.inlineRes x = env2.inlineRes x)
    (htxt : ∀ x, env1.toTextRes x = env2.toTextRes x)
    (hsubj : env1.renderedSubject = env2.renderedSubject)
    (hdial : env1.dialErr = env2.dialErr)
    (hfr : env1.fromErr = env2.fromErr)
    (hto : ∀ r, env1.toErr r = env2.toErr r)
    (hse : ∀ r, env1.sendErr r = env2.sendErr r)
    (hit : ∀ l, env1.iterOrder l = env2.iterOrder l) :
    (p1.Exec env1).1 = (p2.Exec env2).1 := by
  cases hc : env1.clientErr with
  | some e => simp [Plugin.Exec, hc, hclient.symm.trans hc]
  | none =>
    have hc2 := hclient.symm.trans hc
    cases hb : env1.renderedBody with
    | error e => simp [Plugin.Exec, hc, hc2, hb, hbody.symm.trans hb]
    | ok bdy =>
      have hb2 := hbody.symm.trans hb
      cases hi : env1.inlineRes bdy with
      | error e => simp [Plugin.Exec, hc, hc2, hb, hb2, hi, (hinl bdy).symm.trans hi]
      | ok htm =>
        have hi2 := (hinl bdy).symm.trans hi
        cases ht : env1.toTextRes htm with
        | error e => simp [Plugin.Exec, hc, hc2, hb, hb2, hi, hi2, ht, (htxt htm).symm.trans ht]
        | ok txt =>
          have ht2 := (htxt htm).symm.trans ht
          cases hs : env1.renderedSubject with
          | error e =>
            simp [Plugin.Exec, hc, hc2, hb, hb2, hi, hi2, ht, ht2, hs, hsubj.symm.trans hs]
          | ok sbj =>
            have hs2 := hsubj.symm.trans hs
            cases hd : env1.dialErr with
            | some e =>
              simp [Plugin.Exec, hc, hc2, hb, hb2, hi, hi2, ht, ht2, hs, hs2, hd,
                hdial.symm.trans hd]
            | none =>
              have hd2 := hdial.symm.trans hd
              simp only [Plugin.Exec, hc, hc2, hb, hb2, hi, hi2, ht, ht2, hs, hs2, hd, hd2]
              rw [← hres, ← hit]
              exact sendLoop_fst_eq p1.Config p2.Config env1 env2 sbj txt htm sbj txt htm
                hfr hto hse _

/-! ### Claim theorems -/

/-- C1: the resolved recipient set is exactly the union of (a) the non-empty
entries of `config.Recipients`, (b) the commit author's email when
`RecipientsOnly` is false and that email is non-empty, and (c) the non-empty
lines of the recipients file when it opens successfully; it contains no empty
string and no duplicates, deduplicated by exact string equality (an empty
`RecipientsFile` path never opens, which is the hypothesis `hf`). -/
theorem resolve_set_spec (cfg : Config) (email : String) (fl : Option (List String))
    (hf : cfg.RecipientsFile = "" → fl = none) :
    (∀ x, x ∈ (resolveRecipients cfg email fl).1 ↔
      (x ∈ cfg.Recipients ∧ x ≠ "") ∨
      (cfg.RecipientsOnly = false ∧ email ≠ "" ∧ x = email) ∨
      (∃ ls, fl = some ls ∧ x ∈ ls ∧ x ≠ "")) ∧
    (resolveRecipients cfg email fl).1.Nodup ∧
    ("" : String) ∉ (resolveRecipients cfg email fl).1 := by
  refine ⟨fun x => resolveRecipients_fst_mem cfg email fl hf x,
    resolveRecipients_fst_nodup cfg email fl, ?_⟩
  intro hmem
  rcases (resolveRecipients_fst_mem cfg email fl hf "").1 hmem with
    ⟨_, h⟩ | ⟨_, he, h⟩ | ⟨_, _, _, h⟩
  · exact h rfl
  · exact he h.symm
  · exact h rfl

/-- Witness for C1 at the spec's own example: config recipients
`["a@x.com", "a@x.com", ""]` plus file lines `["a@x.com", "b@x.com", ""]`
resolve to exactly `{a@x.com, b@x.com}`. -/
theorem resolve_set_spec_witness :
    ("" : String) ∉ (resolveRecipients cfgDup "" (some ["a@x.com", "b@x.com", ""])).1 ∧
    (resolveRecipients cfgDup "" (some ["a@x.com", "b@x.com", ""])).1
      = ["a@x.com", "b@x.com"] :=
  ⟨(resolve_set_spec cfgDup "" (some ["a@x.com", "b@x.com", ""])
      (fun h => absurd h (by decide))).2.2, by decide⟩

/-- C2: when the send for the recipient at position N of the iteration fails,
every earlier recipient has already been sent its message (the `sent` events
for `pre`), no later recipient is sent one, `Exec` returns the send error, and
the failure log references the failing recipient — with no rollback and no
partial-success result. -/
theorem send_failure_aborts (p : Plugin) (env : Env) (bdy htm txt sbj e : String)
    (pre post : List String) (r : String)
    (hclient : env.clientErr = none) (hbody : env.renderedBody = Except.ok bdy)
    (hinl : env.inlineRes bdy = Except.ok htm) (htxt : env.toTextRes htm = Except.ok txt)
    (hsubj : env.renderedSubject = Except.ok sbj) (hdial : env.dialErr = none)
    (hiter : env.iterOrder (resolveRecipients p.Config p.Commit.Author.Email env.fileLines).1
      = pre ++ r :: post)
    (hfr : env.fromErr = none)
    (hpre : ∀ x ∈ pre, env.toErr x = none ∧ env.sendErr x = none)
    (hto : env.toErr r = none) (hse : env.sendErr r = some e) :
    (p.Exec env).1 = some e ∧
    (p.Exec env).2 =
      (resolveRecipients p.Config p.Commit.Author.Email env.fileLines).2
        ++ [Event.infoRecipients, Event.dialed]
        ++ pre.map (fun x => Event.sent x (mkMsg p.Config env.fileExists sbj txt htm x))
        ++ [Event.errSend r, Event.closed] := by
  rw [Exec_unfold_ok p env bdy htm txt sbj hclient hbody hinl htxt hsubj hdial, hiter,
    sendLoop_fail_at p.Config env sbj txt htm pre post r e hfr hpre hto hse]
  refine ⟨rfl, ?_⟩
  simp [List.append_assoc]

/-- Witness for C2: three recipients, the send to the second one fails. -/
theorem send_failure_aborts_witness :
    (Plugin.Exec pluginThree envSendFail).1 = some "boom" :=
  (send_failure_aborts pluginThree envSendFail "B" "H" "T" "S" "boom"
    ["a@x.com"] ["c@x.com"] "b@x.com" rfl rfl rfl rfl rfl rfl (by decide) rfl
    (by decide) (by decide) (by decide)).1

/-- C3: whenever the dial succeeds, the connection is closed exactly once
before `Exec` returns — the `closed` event is the last event of the trace and
occurs nowhere else — on every exit path of the recipient loop (normal
completion, From/To header failure, send failure). -/
theorem connection_closed_exactly_once (p : Plugin) (env : Env) (bdy htm txt sbj : String)
    (hclient : env.clientErr = none) (hbody : env.renderedBody = Except.ok bdy)
    (hinl : env.inlineRes bdy = Except.ok htm) (htxt : env.toTextRes htm = Except.ok txt)
    (hsubj : env.renderedSubject = Except.ok sbj) (hdial : env.dialErr = none) :
    ∃ evs, (p.Exec env).2 = evs ++ [Event.closed] ∧ Event.closed ∉ evs := by
  rw [Exec_unfold_ok p env bdy htm txt sbj hclient hbody hinl htxt hsubj hdial]
  refine ⟨_, rfl, ?_⟩
  intro h
  rcases List.mem_append.1 h with h | h
  · rcases List.mem_append.1 h with h | h
    · exact (resolveRecipients_snd_not_special _ _ _ _ h).2.2 rfl
    · simp at h
  · exact sendLoop_no_closed _ _ _ _ _ _ h

/-- Witness for C3 with the all-success environment. -/
theorem connection_closed_exactly_once_witness :
    ∃ evs, (Plugin.Exec basePlugin baseEnv).2 = evs ++ [Event.closed] ∧
      Event.closed ∉ evs :=
  connection_closed_exactly_once basePlugin baseEnv "B" "H" "T" "S" rfl rfl rfl rfl rfl rfl

/-- C4: when the dial fails, `Exec` returns the dial error, no recipient is
sent a message, and the connection close is never invoked. -/
theorem dial_failure_no_send_no_close (p : Plugin) (env : Env) (bdy htm txt sbj e : String)
    (hclient : env.clientErr = none) (hbody : env.renderedBody = Except.ok bdy)
    (hinl : env.inlineRes bdy = Except.ok htm) (htxt : env.toTextRes htm = Except.ok txt)
    (hsubj : env.renderedSubject = Except.ok sbj) (hdial : env.dialErr = some e) :
    (p.Exec env).1 = some e ∧
    (∀ r m, Event.sent r m ∉ (p.Exec env).2) ∧
    Event.closed ∉ (p.Exec env).2 := by
  rw [Exec_unfold_dialfail p env bdy htm txt sbj e hclient hbody hinl htxt hsubj hdial]
  refine ⟨rfl, ?_, ?_⟩
  · intro r m h
    rcases List.mem_append.1 h with h | h
    · exact (resolveRecipients_snd_not_special _ _ _ _ h).2.1 r m rfl
    · simp at h
  · intro h
    rcases List.mem_append.1 h with h | h
    · exact (resolveRecipients_snd_not_special _ _ _ _ h).2.2 rfl
    · simp at h

/-- Witness for C4: the dial fails with a concrete error. -/
theorem dial_failure_no_send_no_close_witness :
    (Plugin.Exec basePlugin envDialFail).1 = some "dialfail" :=
  (dial_failure_no_send_no_close basePlugin envDialFail "B" "H" "T" "S" "dialfail"
    rfl rfl rfl rfl rfl rfl).1

/-- C5: when rendering the body template, inlining the CSS, deriving the
plain text, or rendering the subject fails, `Exec` returns that error before
the connection is dialed: no dial, no send, no close appears in the trace. -/
theorem compose_failure_before_dial (p : Plugin) (env : Env) (e : String)
    (hclient : env.clientErr = none) (hcomp : composeErr env = some e) :
    (p.Exec env).1 = some e ∧ Event.dialed ∉ (p.Exec env).2 ∧
    (∀ r m, Event.sent r m ∉ (p.Exec env).2) ∧ Event.closed ∉ (p.Exec env).2 := by
  obtain ⟨ev, hEq, hor⟩ := Exec_unfold_composefail p env e hclient hcomp
  refine exec_err_before_dial p env e ev hEq ?_ ?_ ?_ <;>
    rcases hor with rfl | rfl | rfl | rfl
  · exact fun hc => Event.noConfusion hc
  · exact fun hc => Event.noConfusion hc
  · exact fun hc => Event.noConfusion hc
  · exact fun hc => Event.noConfusion hc
  · exact fun r m hc => Event.noConfusion hc
  · exact fun r m hc => Event.noConfusion hc
  · exact fun r m hc => Event.noConfusion hc
  · exact fun r m hc => Event.noConfusion hc
  · exact fun hc => Event.noConfusion hc
  · exact fun hc => Event.noConfusion hc
  · exact fun hc => Event.noConfusion hc
  · exact fun hc => Event.noConfusion hc

/-- Witness for C5: the body template fails to render. -/
theorem compose_failure_before_dial_witness :
    (Plugin.Exec basePlugin envBodyFail).1 = some "tplfail" ∧
    Event.dialed ∉ (Plugin.Exec basePlugin envBodyFail).2 :=
  ⟨(compose_failure_before_dial basePlugin envBodyFail "tplfail" rfl rfl).1,
    (compose_failure_before_dial basePlugin envBodyFail "tplfail" rfl rfl).2.1⟩

/-- C6: an attachment path (the single `Attachment` field, when set, or any
entry of `Attachments`) is attached exactly when the file exists at send time;
every sent message carries exactly those attachments; and a missing attachment
never changes the error result of `Exec` — the outcome is independent of which
files exist. -/
theorem attachment_existence_handling (p : Plugin) (env : Env) :
    (∀ q, q ∈ attachmentList p.Config env.fileExists ↔
      env.fileExists q = true ∧
        ((q = p.Config.Attachment ∧ q ≠ "") ∨ q ∈ p.Config.Attachments)) ∧
    (∀ r m, Event.sent r m ∈ (p.Exec env).2 →
      m.attachments = attachmentList p.Config env.fileExists) ∧
    (∀ f g : String → Bool,
      (Plugin.Exec p { env with fileExists := f }).1 =
      (Plugin.Exec p { env with fileExists := g }).1) := by
  refine ⟨fun q => mem_attachmentList p.Config env.fileExists q,
    fun r m h => Exec_sent_attachments p env r m h, fun f g => ?_⟩
  exact Exec_fst_congr p p _ _ rfl rfl rfl (fun _ => rfl) (fun _ => rfl) rfl rfl rfl
    (fun _ => rfl) (fun _ => rfl) (fun _ => rfl)

/-- Witness for C6: the configured attachment is attached when it exists, and
the error result is unchanged between an environment where every file exists
and one where none does. -/
theorem attachment_existence_handling_witness :
    "/missing.txt" ∈ attachmentList pluginMissingAttach.Config (fun _ => true) ∧
    (Plugin.Exec pluginMissingAttach { baseEnv with fileExists := fun _ => true }).1 =
      (Plugin.Exec pluginMissingAttach { baseEnv with fileExists := fun _ => false }).1 :=
  ⟨((attachment_existence_handling pluginMissingAttach
      { baseEnv with fileExists := fun _ => true }).1 "/missing.txt").mpr
      ⟨rfl, Or.inl ⟨by decide, by decide⟩⟩,
    (attachment_existence_handling pluginMissingAttach baseEnv).2.2
      (fun _ => true) (fun _ => false)⟩

/-- C7 counterexample: a missing attachment file is a skip-and-continue
condition that produces NO log line.  With `Attachment = "/missing.txt"` and
no file existing, the message is sent without the attachment and the whole
trace contains no warning or error event at all — refuting the claim that
every recoverable skip condition is logged. -/
theorem missing_attachment_unlogged_cex :
    pluginMissingAttach.Config.Attachment = "/missing.txt" ∧
    baseEnv.fileExists "/missing.txt" = false ∧
    (Plugin.Exec pluginMissingAttach baseEnv).2 =
      [Event.infoRecipients, Event.dialed,
        Event.sent "a@x.com" ⟨"", "from@x.com", "a@x.com", "S", "T", "H", []⟩,
        Event.closed] :=
  ⟨rfl, rfl, by decide⟩

/-- C7 (amended): an empty recipient entry (config list or file line), an
unopenable recipients file and a missing commit-author email each produce a
log line while resolution proceeds; a missing attachment file, however, is
skipped silently — the send loop emits only send-related events, never a
warning, and the missing path is simply absent from the sent message. -/
theorem recoverable_skip_logging (p : Plugin) (env : Env) (sbj txt htm : String)
    (rs : List String) :
    (("" : String) ∈ p.Config.Recipients →
      Event.warnEmptyConfigRecipient ∈
        (resolveRecipients p.Config p.Commit.Author.Email env.fileLines).2) ∧
    (p.Config.RecipientsOnly = false → p.Commit.Author.Email = "" →
      Event.warnAuthorEmailEmpty ∈
        (resolveRecipients p.Config p.Commit.Author.Email env.fileLines).2) ∧
    (p.Config.RecipientsFile ≠ "" → env.fileLines = none →
      Event.errOpenFile p.Config.RecipientsFile ∈
        (resolveRecipients p.Config p.Commit.Author.Email env.fileLines).2) ∧
    (∀ ls, p.Config.RecipientsFile ≠ "" → env.fileLines = some ls →
      ("" : String) ∈ ls →
      Event.warnEmptyFileRecipient p.Config.RecipientsFile ∈
        (resolveRecipients p.Config p.Commit.Author.Email env.fileLines).2) ∧
    (∀ ev ∈ (sendLoop p.Config env sbj txt htm rs).2,
      (∃ r m, ev = Event.sent r m) ∨ ev = Event.errFromHeader ∨
      ev = Event.errToHeader ∨ ∃ r, ev = Event.errSend r) ∧
    (∀ q r m, env.fileExists q = false →
      Event.sent r m ∈ (sendLoop p.Config env sbj txt htm rs).2 →
      q ∉ m.attachments) := by
  refine ⟨?_, ?_, ?_, ?_, ?_, ?_⟩
  · intro h
    rw [resolveRecipients_snd]
    refine List.mem_append.2 (Or.inl (List.mem_append.2 (Or.inl ?_)))
    exact List.mem_map.2 ⟨"", List.mem_filter.2 ⟨h, by decide⟩, rfl⟩
  · intro h1 h2
    rw [resolveRecipients_snd]
    refine List.mem_append.2 (Or.inl (List.mem_append.2 (Or.inr ?_)))
    simp [h1, h2]
  · intro h1 h2
    rw [resolveRecipients_snd]
    refine List.mem_append.2 (Or.inr ?_)
    rw [if_neg h1, h2]
    exact List.mem_singleton.2 rfl
  · intro ls h1 h2 h3
    rw [resolveRecipients_snd]
    refine List.mem_append.2 (Or.inr ?_)
    rw [if_neg h1, h2]
    exact List.mem_map.2 ⟨"", List.mem_filter.2 ⟨h3, by decide⟩, rfl⟩
  · exact fun ev hev => sendLoop_events_shape p.Config env sbj txt htm rs ev hev
  · intro q r m hq hsent hmem
    have hm := sendLoop_sent_msg p.Config env sbj txt htm rs r m hsent
    subst hm
    have hconj := (mem_attachmentList p.Config env.fileExists q).1 hmem
    rw [hq] at hconj
    exact Bool.false_ne_true hconj.1

/-- Witness for the amended C7: all three logged skip conditions occur at a
concrete input and each log line is present. -/
theorem recoverable_skip_logging_witness :
    Event.warnEmptyConfigRecipient ∈
      (resolveRecipients pluginWarn.Config pluginWarn.Commit.Author.Email
        baseEnv.fileLines).2 ∧
    Event.warnAuthorEmailEmpty ∈
      (resolveRecipients pluginWarn.Config pluginWarn.Commit.Author.Email
        baseEnv.fileLines).2 ∧
    Event.errOpenFile "r.txt" ∈
      (resolveRecipients pluginWarn.Config pluginWarn.Commit.Author.Email
        baseEnv.fileLines).2 :=
  ⟨(recoverable_skip_logging pluginWarn baseEnv "S" "T" "H" []).1 (by decide),
    (recoverable_skip_logging pluginWarn baseEnv "S" "T" "H" []).2.1 (by decide) (by decide),
    (recoverable_skip_logging pluginWarn baseEnv "S" "T" "H" []).2.2.1 (by decide) rfl⟩

/-- C8: when the recipients file is configured but cannot be opened, the
failure is logged, resolution completes from the other two sources alone
(same set as if no file were configured), and the error result of `Exec` is
unchanged — the open failure is never fatal. -/
theorem recipients_file_failure_recoverable (p : Plugin) (env : Env)
    (hfe : p.Config.RecipientsFile ≠ "") (hopen : env.fileLines = none) :
    Event.errOpenFile p.Config.RecipientsFile ∈ (p.Exec env).2 ∧
    (resolveRecipients p.Config p.Commit.Author.Email env.fileLines).1 =
      (resolveRecipients { p.Config with RecipientsFile := "" }
        p.Commit.Author.Email env.fileLines).1 ∧
    (p.Exec env).1 =
      (Plugin.Exec { p with Config := { p.Config with RecipientsFile := "" } } env).1 := by
  have hres : (resolveRecipients p.Config p.Commit.Author.Email env.fileLines).1 =
      (resolveRecipients { p.Config with RecipientsFile := "" }
        p.Commit.Author.Email env.fileLines).1 := by
    rw [hopen]
    simp only [resolveRecipients, if_neg hfe]
    simp
  obtain ⟨tl, htl⟩ := Exec_snd_resolve_prefix p env
  refine ⟨?_, hres, ?_⟩
  · rw [htl]
    refine List.mem_append.2 (Or.inl ?_)
    rw [resolveRecipients_snd]
    refine List.mem_append.2 (Or.inr ?_)
    rw [if_neg hfe, hopen]
    exact List.mem_singleton.2 rfl
  · exact Exec_fst_congr p { p with Config := { p.Config with RecipientsFile := "" } }
      env env hres rfl rfl (fun _ => rfl) (fun _ => rfl) rfl rfl rfl (fun _ => rfl)
      (fun _ => rfl) (fun _ => rfl)

/-- Witness for C8: a configured recipients file that fails to open is logged
while the run proceeds. -/
theorem recipients_file_failure_recoverable_witness :
    Event.errOpenFile "r.txt" ∈ (Plugin.Exec pluginFile baseEnv).2 :=
  (recipients_file_failure_recoverable pluginFile baseEnv (by decide) rfl).1

/-- C9: the client options encode the TLS policy — `NoStartTLS = true` sets
the `NoTLS` port policy (STARTTLS disabled entirely, no other policy present),
`NoStartTLS = false` sets the opportunistic policy (and no other), and
`SkipVerify = true` installs a TLS config with certificate validation
disabled. -/
theorem tls_policy_options (cfg : Config) :
    (cfg.NoStartTLS = true →
      MailOption.withTLSPortPolicy TLSPolicy.NoTLS ∈ buildOptions cfg ∧
      MailOption.withTLSPortPolicy TLSPolicy.TLSOpportunistic ∉ buildOptions cfg ∧
      MailOption.withTLSPortPolicy TLSPolicy.TLSMandatory ∉ buildOptions cfg) ∧
    (cfg.NoStartTLS = false →
      MailOption.withTLSPortPolicy TLSPolicy.TLSOpportunistic ∈ buildOptions cfg ∧
      MailOption.withTLSPortPolicy TLSPolicy.NoTLS ∉ buildOptions cfg ∧
      MailOption.withTLSPortPolicy TLSPolicy.TLSMandatory ∉ buildOptions cfg) ∧
    (cfg.SkipVerify = true → MailOption.withTLSConfig true ∈ buildOptions cfg) := by
  unfold buildOptions
  by_cases h1 : cfg.ClientHostname = "" <;>
    by_cases h2 : cfg.Username ≠ "" ∧ cfg.Password ≠ "" <;>
      by_cases h3 : cfg.SkipVerify <;>
        by_cases h4 : cfg.NoStartTLS <;>
          simp [h1, h2, h3, h4]

/-- Witness for C9 at concrete configurations with the flags on and off. -/
theorem tls_policy_options_witness :
    MailOption.withTLSPortPolicy TLSPolicy.NoTLS ∈ buildOptions cfgTLS ∧
    MailOption.withTLSConfig true ∈ buildOptions cfgTLS ∧
    MailOption.withTLSPortPolicy TLSPolicy.TLSOpportunistic ∈ buildOptions baseConfig :=
  ⟨((tls_policy_options cfgTLS).1 rfl).1, (tls_policy_options cfgTLS).2.2 rfl,
    ((tls_policy_options baseConfig).2.1 rfl).1⟩

/-- C10: with an empty resolved recipient set the client is still created and
the connection still dialed; when the dial succeeds the loop sends nothing,
the connection is closed and `Exec` returns nil, while a dial failure still
fails the run. -/
theorem empty_recipients_still_dials (p : Plugin) (env : Env) (bdy htm txt sbj : String)
    (hclient : env.clientErr = none) (hbody : env.renderedBody = Except.ok bdy)
    (hinl : env.inlineRes bdy = Except.ok htm) (htxt : env.toTextRes htm = Except.ok txt)
    (hsubj : env.renderedSubject = Except.ok sbj)
    (hempty : (resolveRecipients p.Config p.Commit.Author.Email env.fileLines).1 = [])
    (hiter : env.iterOrder [] = []) :
    (env.dialErr = none →
      (p.Exec env).1 = none ∧ Event.dialed ∈ (p.Exec env).2 ∧
      Event.closed ∈ (p.Exec env).2 ∧ ∀ r m, Event.sent r m ∉ (p.Exec env).2) ∧
    (∀ e, env.dialErr = some e → (p.Exec env).1 = some e) := by
  constructor
  · intro hdial
    rw [Exec_unfold_ok p env bdy htm txt sbj hclient hbody hinl htxt hsubj hdial, hempty,
      hiter]
    rw [show sendLoop p.Config env sbj txt htm [] = (none, []) from rfl]
    refine ⟨rfl, ?_, ?_, ?_⟩
    · simp
    · simp
    · intro r m h
      rcases List.mem_append.1 h with h | h
      · rcases List.mem_append.1 h with h | h
        · rcases List.mem_append.1 h with h | h
          · exact (resolveRecipients_snd_not_special _ _ _ _ h).2.1 r m rfl
          · simp at h
        · simp at h
      · simp at h
  · intro e hdial
    rw [Exec_unfold_dialfail p env bdy htm txt sbj e hclient hbody hinl htxt hsubj hdial]

/-- Witness for C10: no recipients resolve, yet the run dials and succeeds. -/
theorem empty_recipients_still_dials_witness :
    (Plugin.Exec pluginNone baseEnv).1 = none ∧
    Event.dialed ∈ (Plugin.Exec pluginNone baseEnv).2 :=
  ⟨((empty_recipients_still_dials pluginNone baseEnv "B" "H" "T" "S" rfl rfl rfl rfl rfl
      (by decide) rfl).1 rfl).1,
    ((empty_recipients_still_dials pluginNone baseEnv "B" "H" "T" "S" rfl rfl rfl rfl rfl
      (by decide) rfl).1 rfl).2.1⟩
